import Mathlib

/-!
Shallow embedding of the resource-tracker repository
(`resource_tracker.py`, `resource_cleanup.py`) and proofs about it.

Timestamps are modelled as integers (the unit is hours; `timedelta(hours=h)`
becomes the integer `h`).  Each inventory table is a list of rows; SQL
`UPDATE ... WHERE` statements become maps over that list guarded by the
`WHERE` condition, `INSERT` appends a row, and `SELECT ... ORDER BY` becomes
filter-then-sort.
-/

/-- One row of an inventory table (`servers`, `networks`, `routers`,
`subnets`, `floating_ips`).  Only the columns common to all five tables and
read by some property are modelled; kind-specific payload columns (flavor,
cidr, external_gateway_info, ...) are carried by none of the statements
below and are omitted.  Columns absent from the `INSERT` statements
(`first_time_not_seen`, `system_deleted`, `user_deleted`) take the schema
defaults `NULL` / `FALSE`. -/
structure Row where
  resource_id : String
  resource_name : String
  status : String
  created_time : Int
  updated_time : Int
  last_seen_time : Int
  first_time_not_seen : Option Int
  system_deleted : Bool
  user_deleted : Bool
  project_site : String
deriving Repr, DecidableEq

/-- A live resource object returned by the gateway listing
(`os_conn.compute.servers()` etc.): the provider fields the update
statements read. -/
structure LiveResource where
  id : String
  name : String
  status : String
  created_at : Int
  updated_at : Int
deriving Repr, DecidableEq

/-- Default row used with `List.getD`; its `first_time_not_seen` is `none`. -/
def row0 : Row :=
  { resource_id := "", resource_name := "", status := "", created_time := 0,
    updated_time := 0, last_seen_time := 0, first_time_not_seen := none,
    system_deleted := false, user_deleted := false, project_site := "" }

/-- `SELECT resource_id FROM <kind> WHERE project_site = %s`
(the existing-id set computed at the start of a pass). -/
def existingIds (table : List Row) (site : String) : List String :=
  (table.filter (fun r => r.project_site == site)).map (fun r => r.resource_id)

/-- The seen-branch statement
`UPDATE <kind> SET resource_name = ..., status = ..., updated_time = ...,
last_seen_time = ... WHERE resource_id = %(resource_id)s`
applied to one row.  The `WHERE` clause names `resource_id` only: the row's
`project_site` is not constrained. -/
def applySeenUpdate (s : LiveResource) (t : Int) (r : Row) : Row :=
  if r.resource_id == s.id then
    { r with resource_name := s.name, status := s.status,
             updated_time := s.updated_at, last_seen_time := t }
  else r

/-- The insert branch
`INSERT INTO <kind> (resource_id, resource_name, status, created_time,
updated_time, last_seen_time, ..., project_site) VALUES (...)`.
`first_time_not_seen`, `system_deleted`, `user_deleted` are not in the
column list and take the schema defaults. -/
def insertRow (s : LiveResource) (t : Int) (site : String) : Row :=
  { resource_id := s.id, resource_name := s.name, status := s.status,
    created_time := s.created_at, updated_time := s.updated_at,
    last_seen_time := t, first_time_not_seen := none,
    system_deleted := false, user_deleted := false, project_site := site }

/-- The `for server in servers:` loop: per live resource, if its id is in
the existing-id set (computed once, before the loop) run the seen-branch
`UPDATE`, else run the `INSERT`. -/
def processSeen (table : List Row) (live : List LiveResource) (t : Int)
    (site : String) (ex : List String) : List Row :=
  live.foldl
    (fun tbl s =>
      if ex.contains s.id then tbl.map (applySeenUpdate s t)
      else tbl ++ [insertRow s t site])
    table

/-- The absence-marking statement
`UPDATE <kind> SET first_time_not_seen = %s, user_deleted = TRUE
WHERE resource_id = ANY(%s) AND first_time_not_seen IS NULL`
applied to one row.  Again the `WHERE` clause does not constrain
`project_site`. -/
def markFn (missing : List String) (t : Int) (r : Row) : Row :=
  if missing.contains r.resource_id && r.first_time_not_seen == none then
    { r with first_time_not_seen := some t, user_deleted := true }
  else r

/-- The absence-marking `UPDATE` over the whole table. -/
def markMissing (table : List Row) (missing : List String) (t : Int) : List Row :=
  table.map (markFn missing t)

/-- `ResourceTracker.update_servers` (resource_tracker.py): one
reconciliation pass of one table for one site.  `update_networks`,
`update_routers`, `update_subnets` and `update_floating_ips` are textually
identical in every modelled column and are embedded by the same function
below. -/
def update_servers (table : List Row) (servers : List LiveResource)
    (current_time : Int) (project_site : String) : List Row :=
  let ex := existingIds table project_site
  let table1 := processSeen table servers current_time project_site ex
  let current := servers.map (fun s => s.id)
  let missing := ex.filter (fun i => !(current.contains i))
  if missing.isEmpty then table1 else markMissing table1 missing current_time

/-- `ResourceTracker.update_networks`: same statements as `update_servers`
on the `networks` table. -/
def update_networks := update_servers

/-- `ResourceTracker.update_routers`: same statements on `routers`. -/
def update_routers := update_servers

/-- `ResourceTracker.update_subnets`: same statements on `subnets`. -/
def update_subnets := update_servers

/-- `ResourceTracker.update_floating_ips`: same statements on
`floating_ips` (the live object's `description or id` naming does not
affect any modelled column's behaviour). -/
def update_floating_ips := update_servers

/-- The five inventory tables the reconciler writes (GPU-lease tables are
touched by no claim and are omitted). -/
structure TrackerDB where
  servers : List Row
  networks : List Row
  routers : List Row
  subnets : List Row
  floating_ips : List Row
deriving Repr, DecidableEq

/-- The per-site result of `fetch_current_resources`: one live listing per
resource kind. -/
structure Listing where
  servers : List LiveResource
  networks : List LiveResource
  routers : List LiveResource
  subnets : List LiveResource
  floating_ips : List LiveResource
deriving Repr, DecidableEq

/-- The body of the per-site iteration of `update_resources`: the five
`update_*` calls for one site, on writes buffered in the open transaction. -/
def reconcileSite (db : TrackerDB) (lst : Listing) (t : Int) (site : String) :
    TrackerDB :=
  { servers := update_servers db.servers lst.servers t site,
    networks := update_networks db.networks lst.networks t site,
    routers := update_routers db.routers lst.routers t site,
    subnets := update_subnets db.subnets lst.subnets t site,
    floating_ips := update_floating_ips db.floating_ips lst.floating_ips t site }

/-- The `for project_site in self.os_connections.keys():` loop inside the
single open transaction: `fetch_current_resources` re-raises a listing
failure (modelled as `none`), which short-circuits the whole loop. -/
def runSitesTx (fetch : String → Option Listing) (t : Int) :
    List String → TrackerDB → Option TrackerDB
  | [], db => some db
  | site :: rest, db =>
    match fetch site with
    | none => none
    | some lst => runSitesTx fetch t rest (reconcileSite db lst t site)

/-- Outcome of `update_resources`: the store contents afterwards, and
whether the single `conn.commit()` was reached (`false` = the exception
path ran `conn.rollback()` and re-raised). -/
structure RunResult where
  db : TrackerDB
  committed : Bool
deriving Repr, DecidableEq

/-- `ResourceTracker.update_resources`: one connection with
`autocommit = False`, all sites reconciled inside that one transaction,
`conn.commit()` only after the loop over every site; any exception rolls
the whole transaction back (the store keeps its initial contents) and
re-raises. -/
def update_resources (sites : List String) (fetch : String → Option Listing)
    (current_time : Int) (db : TrackerDB) : RunResult :=
  match runSitesTx fetch current_time sites db with
  | some db1 => { db := db1, committed := true }
  | none => { db := db, committed := false }

/-- `ResourceCleaner.protected_resources['networks']`. -/
def protectedNetworks : List String := ["public", "sharednet1"]

/-- `ResourceCleaner.protected_resources['subnets']`. -/
def protectedSubnets : List String := ["sharednet1-subnet"]

/-- The inventory store as read by the retirement selector. -/
structure InventoryDB where
  servers : List Row
  networks : List Row
  routers : List Row
  subnets : List Row
  floating_ips : List Row
deriving Repr, DecidableEq

/-- The optional `AND project_site = %s` condition. -/
def siteMatches (site : Option String) (r : Row) : Bool :=
  match site with
  | some s => r.project_site == s
  | none => true

/-- The `WHERE` clause shared by the five selection queries:
`created_time < %s AND first_time_not_seen IS NULL [AND project_site = %s]
[AND resource_name NOT IN %s]` (the `NOT IN` part only for networks and
subnets, with their protected-name tuples). -/
def matchesSel (cutoff : Int) (site : Option String) (excl : List String)
    (r : Row) : Bool :=
  decide (r.created_time < cutoff) && r.first_time_not_seen == none &&
    siteMatches site r && !(excl.contains r.resource_name)

/-- `created_time` order used by `ORDER BY created_time ASC`. -/
def rowLE (a b : Row) : Prop := a.created_time ≤ b.created_time

instance : DecidableRel rowLE := fun x y => Int.decLe x.created_time y.created_time

instance : IsTotal Row rowLE := ⟨fun x y => Int.le_total x.created_time y.created_time⟩

instance : IsTrans Row rowLE := ⟨fun _ _ _ => Int.le_trans⟩

/-- One `SELECT ... WHERE ... ORDER BY created_time ASC` query: filter the
table by the `WHERE` clause, return the rows in some ascending
`created_time` order (`ORDER BY` with ties left unspecified). -/
def selectQuery (table : List Row) (cutoff : Int) (site : Option String)
    (excl : List String) : List Row :=
  List.insertionSort rowLE (table.filter (matchesSel cutoff site excl))

/-- The per-kind result dict of the retirement selector; a kind absent from
`resource_type` has no dict entry, modelled as `[]`. -/
structure Selection where
  servers : List Row
  networks : List Row
  subnets : List Row
  routers : List Row
  floating_ips : List Row
deriving Repr, DecidableEq

/-- `ResourceCleaner.get_resources_to_delete` (resource_cleanup.py):
`cutoff_time = datetime.now() - timedelta(hours=hours)`, then one query per
requested kind; networks and subnets additionally exclude their protected
names. -/
def get_resources_to_delete (db : InventoryDB) (now hours : Int)
    (resource_type : List String) (project_site : Option String) : Selection :=
  let cutoff := now - hours
  { servers :=
      if resource_type.contains "servers" then
        selectQuery db.servers cutoff project_site [] else [],
    networks :=
      if resource_type.contains "networks" then
        selectQuery db.networks cutoff project_site protectedNetworks else [],
    subnets :=
      if resource_type.contains "subnets" then
        selectQuery db.subnets cutoff project_site protectedSubnets else [],
    routers :=
      if resource_type.contains "routers" then
        selectQuery db.routers cutoff project_site [] else [],
    floating_ips :=
      if resource_type.contains "floating_ips" then
        selectQuery db.floating_ips cutoff project_site [] else [] }

/-- A gateway delete call attempted by `delete_resources`.  The source
contains no router-directed gateway call, so no router constructor exists. -/
inductive GCall where
  | deleteServer (id : String)
  | deletePort (networkId portId : String)
  | deleteSubnet (id : String)
  | deleteNetwork (id : String)
  | deleteIp (id : String)
deriving Repr, DecidableEq

/-- One bulk `UPDATE <table> SET system_deleted = TRUE, updated_time = NOW()
WHERE resource_id = ANY(%s)` statement. -/
structure DbWrite where
  table : String
  ids : List String
deriving Repr, DecidableEq

/-- The `deleted_resources` accumulator of `delete_resources`. -/
structure DeletedIds where
  servers : List String
  routers : List String
  subnets : List String
  networks : List String
  floating_ips : List String
deriving Repr, DecidableEq

def noDeletedIds : DeletedIds :=
  { servers := [], routers := [], subnets := [], networks := [],
    floating_ips := [] }

/-- Observable outcome of one `delete_resources` run: the gateway delete
calls attempted in order, the ids recorded as successfully deleted, the
bulk store writes issued, and whether the function re-raised. -/
structure CleanupResult where
  calls : List GCall
  deleted : DeletedIds
  dbWrites : List DbWrite
  raised : Bool
deriving Repr, DecidableEq

/-- `resources_by_site[site][kind]`: the selected rows of one kind
belonging to one site, in selection order. -/
def siteFilter (items : List Row) (site : String) : List Row :=
  items.filter (fun r => r.project_site == site)

/-- First-occurrence order of dict keys: the sites in the order they are
first seen while iterating the selection dict (kind keys in insertion
order `servers, networks, subnets, routers, floating_ips`, items in list
order). -/
def firstOccur (xs : List String) : List String :=
  xs.foldl (fun acc s => if acc.contains s then acc else acc ++ [s]) []

def sitesOf (sel : Selection) : List String :=
  firstOccur
    ((sel.servers ++ sel.networks ++ sel.subnets ++ sel.routers ++
        sel.floating_ips).map (fun r => r.project_site))

/-- What one site's iteration of the deletion loop does. -/
structure SiteOut where
  calls : List GCall
  servers : List String
  subnets : List String
  floating_ips : List String
  aborted : Bool
deriving Repr, DecidableEq

/-- One site's body of the deletion loop, given the success oracle `ok`
for gateway calls (`ok c = false` models the call raising).

Step 1 deletes each server, recording ids whose call succeeded; a failing
call is caught and the loop continues.

Step 2 (`# 2. Delete Ports on the networks`) runs only when the site has
selected networks; its first statement reads `self.os_conn`, an attribute
`ResourceCleaner` never defines, so it raises `AttributeError` before any
gateway call; the `except` handler's message then reads the never-bound
loop variable `port`, raising `UnboundLocalError` out of the handler, which
propagates to the outer handler of `delete_resources`: the run aborts here
(no port, subnet, network or floating-ip deletion, and no later site).

Steps 3 and 5 delete subnets and floating IPs like step 1.  Step 4
(network deletion) is guarded by `if site_resources['networks']:`, which is
only reached when that list is empty, so it never deletes anything.  No
step touches routers. -/
def processSite (ok : GCall → Bool) (sel : Selection) (site : String) :
    SiteOut :=
  let servers := siteFilter sel.servers site
  let networks := siteFilter sel.networks site
  let subnets := siteFilter sel.subnets site
  let fips := siteFilter sel.floating_ips site
  let serverCalls := servers.map (fun r => GCall.deleteServer r.resource_id)
  let serverDel :=
    (servers.filter (fun r => ok (GCall.deleteServer r.resource_id))).map
      (fun r => r.resource_id)
  if !networks.isEmpty then
    { calls := serverCalls, servers := serverDel, subnets := [],
      floating_ips := [], aborted := true }
  else
    let subnetCalls := subnets.map (fun r => GCall.deleteSubnet r.resource_id)
    let subnetDel :=
      (subnets.filter (fun r => ok (GCall.deleteSubnet r.resource_id))).map
        (fun r => r.resource_id)
    let ipCalls := fips.map (fun r => GCall.deleteIp r.resource_id)
    let ipDel :=
      (fips.filter (fun r => ok (GCall.deleteIp r.resource_id))).map
        (fun r => r.resource_id)
    { calls := serverCalls ++ subnetCalls ++ ipCalls, servers := serverDel,
      subnets := subnetDel, floating_ips := ipDel, aborted := false }

/-- The `for site, site_resources in resources_by_site.items():` loop.
A site without a gateway connection is skipped (`continue`); an abort in
one site's body short-circuits every later site. -/
def runSites (ok : GCall → Bool) (hasConn : String → Bool) (sel : Selection) :
    List GCall × DeletedIds × Bool :=
  (sitesOf sel).foldl
    (fun acc site =>
      match acc with
      | (_, _, true) => acc
      | (calls, del, false) =>
        if !hasConn site then acc
        else
          let o := processSite ok sel site
          (calls ++ o.calls,
           { del with
               servers := del.servers ++ o.servers,
               subnets := del.subnets ++ o.subnets,
               floating_ips := del.floating_ips ++ o.floating_ips },
           o.aborted))
    ([], noDeletedIds, false)

/-- The bulk confirmation writes issued after the site loop: one
`UPDATE <kind> SET system_deleted = TRUE, updated_time = NOW()
WHERE resource_id = ANY(%s)` per kind with a non-empty success list, in
`deleted_resources` key order. -/
def bulkWrites (d : DeletedIds) : List DbWrite :=
  ([("servers", d.servers), ("routers", d.routers), ("subnets", d.subnets),
      ("networks", d.networks), ("floating_ips", d.floating_ips)] :
      List (String × List String)).filterMap
    (fun p => if p.2.isEmpty then none else some { table := p.1, ids := p.2 })

/-- `ResourceCleaner.delete_resources` (resource_cleanup.py).  With
`dry_run` it logs, calls `display_resources` and returns: no gateway call,
no store write.  Otherwise it groups the selection by site, runs the
per-site deletion steps, and — only if no site aborted — issues the bulk
confirmation writes and commits; an abort re-raises with no store write. -/
def delete_resources (sel : Selection) (dry_run : Bool)
    (hasConn : String → Bool) (ok : GCall → Bool) : CleanupResult :=
  if dry_run then
    { calls := [], deleted := noDeletedIds, dbWrites := [], raised := false }
  else
    match runSites ok hasConn sel with
    | (calls, del, true) =>
      { calls := calls, deleted := del, dbWrites := [], raised := true }
    | (calls, del, false) =>
      { calls := calls, deleted := del, dbWrites := bulkWrites del,
        raised := false }

/-! Concrete fixtures used by the evaluation theorems below. -/

/-- An active row at site `chi@tacc`. -/
def rowA : Row :=
  { resource_id := "r1", resource_name := "a", status := "ACTIVE",
    created_time := 0, updated_time := 0, last_seen_time := 0,
    first_time_not_seen := none, system_deleted := false,
    user_deleted := false, project_site := "chi@tacc" }

/-- A row with the same `resource_id` as `rowA` at a different site. -/
def rowB : Row := { rowA with resource_name := "b", project_site := "chi@uc" }

def srvA : Row := { rowA with resource_id := "sA" }

def srvB : Row := { rowA with resource_id := "sB" }

def netN : Row := { rowA with resource_id := "n1" }

def subU : Row := { rowA with resource_id := "u1" }

def fipF : Row := { rowA with resource_id := "f1" }

def rtrR : Row := { rowA with resource_id := "rt1" }

def allConn : String → Bool := fun _ => true

def okAll : GCall → Bool := fun _ => true

def live1 : LiveResource :=
  { id := "s1", name := "vm", status := "ACTIVE", created_at := 0,
    updated_at := 0 }

def listingA : Listing :=
  { servers := [live1], networks := [], routers := [], subnets := [],
    floating_ips := [] }

def emptyTrackerDB : TrackerDB :=
  { servers := [], networks := [], routers := [], subnets := [],
    floating_ips := [] }

/-- A fetch function whose listing call succeeds for `chi@tacc` and fails
for every other site. -/
def fetchCE : String → Option Listing :=
  fun s => if s == "chi@tacc" then some listingA else none

/-- The row fields the seen-branch `UPDATE` does not write:
`resource_id`, `project_site`, `created_time`, `first_time_not_seen`,
`system_deleted`, `user_deleted` are absent from its `SET` list. -/
def seenStable (a b : Row) : Prop :=
  a.resource_id = b.resource_id ∧ a.project_site = b.project_site ∧
    a.created_time = b.created_time ∧
    a.first_time_not_seen = b.first_time_not_seen ∧
    a.system_deleted = b.system_deleted ∧ a.user_deleted = b.user_deleted

/-- What the retirement-selection claim asserts of one returned row: older
than the cutoff, never marked absent, and at the requested site when one
was given. -/
def SelectedRowOk (now hours : Int) (site : Option String) (r : Row) : Prop :=
  r.created_time < now - hours ∧ r.first_time_not_seen = none ∧
    ∀ s, site = some s → r.project_site = s

/-- A row already marked absent at time 7. -/
def rowF7 : Row := { rowA with first_time_not_seen := some 7 }

/-- A live resource with `rowA`'s id: the resource reappearing in a
listing. -/
def liveR1 : LiveResource :=
  { id := "r1", name := "back", status := "ACTIVE", created_at := 0,
    updated_at := 3 }

/-- A row the orchestrator already confirmed deleted
(`system_deleted = TRUE`), still unmarked by absence detection. -/
def rowSys : Row := { rowA with resource_id := "gone", system_deleted := true }

/-- A network row carrying a protected name. -/
def netPub : Row := { rowA with resource_id := "npub", resource_name := "public" }

/-- An inventory store fixture for the selection witnesses. -/
def dbFix : InventoryDB :=
  { servers := [rowA], networks := [netPub, netN], subnets := [subU],
    routers := [rtrR], floating_ips := [fipF] }

/-- C1: for every selected-resources input (and any gateway behaviour),
`delete_resources` with `dry_run = True` attempts no gateway delete or
mutation call, records no deletion, issues no inventory-store write and
does not raise: it only logs and displays a preview before returning. -/
theorem dry_run_pure (sel : Selection) (hasConn : String → Bool)
    (ok : GCall → Bool) :
    delete_resources sel true hasConn ok =
      { calls := [], deleted := noDeletedIds, dbWrites := [], raised := false } :=
  rfl

/-- C4 fails on the code: on a non-dry run selecting servers `sA` (whose
provider delete raises) and `sB`, a network and a subnet, the per-server
exception is indeed caught and `sB` is still attempted and succeeds, but
the port-cleanup step then raises out of its own exception handler
(`self.os_conn` is undefined and the handler reads the unbound `port`), so
the subnet is never attempted and no bulk confirmation update is issued at
all — not even for the successfully deleted `sB`. -/
theorem batch_abort_on_port_step :
    (delete_resources
        { servers := [srvA, srvB], networks := [netN], subnets := [subU],
          routers := [], floating_ips := [] }
        false allConn (fun c => !(c == GCall.deleteServer "sA"))).calls =
      [GCall.deleteServer "sA", GCall.deleteServer "sB"] ∧
    (delete_resources
        { servers := [srvA, srvB], networks := [netN], subnets := [subU],
          routers := [], floating_ips := [] }
        false allConn (fun c => !(c == GCall.deleteServer "sA"))).deleted.servers =
      ["sB"] ∧
    (delete_resources
        { servers := [srvA, srvB], networks := [netN], subnets := [subU],
          routers := [], floating_ips := [] }
        false allConn (fun c => !(c == GCall.deleteServer "sA"))).raised = true ∧
    (delete_resources
        { servers := [srvA, srvB], networks := [netN], subnets := [subU],
          routers := [], floating_ips := [] }
        false allConn (fun c => !(c == GCall.deleteServer "sA"))).dbWrites = [] := by
  decide

/-- C5 fails on the code: a non-dry run selecting only a router performs no
gateway call whatsoever (the code contains no router cleanup or deletion
step), and a non-dry run selecting a server, network, subnet, router and
floating IP — with every gateway call succeeding — aborts right after the
server deletions: the port step raises (undefined `self.os_conn`, unbound
`port` in its handler), so no port, subnet, network or floating IP is ever
deleted, the router is never touched, and no store write is issued. -/
theorem no_router_deletion :
    delete_resources
        { servers := [], networks := [], subnets := [], routers := [rtrR],
          floating_ips := [] } false allConn okAll =
      { calls := [], deleted := noDeletedIds, dbWrites := [], raised := false } ∧
    (delete_resources
        { servers := [srvA], networks := [netN], subnets := [subU],
          routers := [rtrR], floating_ips := [fipF] }
        false allConn okAll).calls = [GCall.deleteServer "sA"] ∧
    (delete_resources
        { servers := [srvA], networks := [netN], subnets := [subU],
          routers := [rtrR], floating_ips := [fipF] }
        false allConn okAll).raised = true ∧
    (delete_resources
        { servers := [srvA], networks := [netN], subnets := [subU],
          routers := [rtrR], floating_ips := [fipF] }
        false allConn okAll).deleted.routers = [] ∧
    (delete_resources
        { servers := [srvA], networks := [netN], subnets := [subU],
          routers := [rtrR], floating_ips := [fipF] }
        false allConn okAll).dbWrites = [] := by
  decide

/-- C7 fails on the code: the inventory holds `resource_id = "r1"` at both
`chi@tacc` (`rowA`) and `chi@uc` (`rowB`).  Reconciling `chi@tacc` against
an empty live listing marks `"r1"` absent with an `UPDATE` whose `WHERE`
clause names `resource_id` only, so the `chi@uc` row is altered too: its
`first_time_not_seen` and `user_deleted` are set by another site's pass. -/
theorem cross_site_write :
    ((update_servers [rowA, rowB] [] 100 "chi@tacc").getD 1 row0).project_site =
      "chi@uc" ∧
    ((update_servers [rowA, rowB] [] 100 "chi@tacc").getD 1 row0).first_time_not_seen =
      some 100 ∧
    ((update_servers [rowA, rowB] [] 100 "chi@tacc").getD 1 row0).user_deleted =
      true := by
  decide

/-- C6 fails on the code: with sites `chi@tacc` (listing succeeds, one new
server) and `chi@uc` (listing fails), the whole run's store state is the
initial one — `chi@tacc`'s insert is rolled back together with the failing
site, although reconciling `chi@tacc` alone would have committed that
insert.  The sites do not have independent per-site transactions. -/
theorem rollback_hits_other_sites :
    (update_resources ["chi@tacc", "chi@uc"] fetchCE 100 emptyTrackerDB).db =
      emptyTrackerDB ∧
    (update_resources ["chi@tacc", "chi@uc"] fetchCE 100 emptyTrackerDB).committed =
      false ∧
    (update_resources ["chi@tacc"] fetchCE 100 emptyTrackerDB).db.servers ≠ [] := by
  decide

/-- If some site's listing fetch fails, the one transaction spanning every
site is never committed and the store keeps its initial contents. -/
lemma runSitesTx_none (fetch : String → Option Listing) (t : Int)
    (s : String) (hfail : fetch s = none) :
    ∀ (sites : List String) (db : TrackerDB), s ∈ sites →
      runSitesTx fetch t sites db = none := by
  intro sites
  induction sites with
  | nil => intro db h; cases h
  | cons x rest ih =>
    intro db h
    rcases List.mem_cons.mp h with h1 | h1
    · subst h1
      simp [runSitesTx, hfail]
    · cases hx : fetch x with
      | none => simp [runSitesTx, hx]
      | some lst => simpa [runSitesTx, hx] using ih _ h1

/-- C6 amended: a failed live-listing fetch for any site aborts the whole
multi-site pass and rolls back its single transaction — the writes of
every site in the pass (including sites reconciled earlier in the same
run) are discarded and the store keeps its initial contents; the atomicity
boundary is the entire run, not one site. -/
theorem listing_failure_rolls_back_run (sites : List String)
    (fetch : String → Option Listing) (t : Int) (db : TrackerDB) (s : String)
    (hmem : s ∈ sites) (hfail : fetch s = none) :
    (update_resources sites fetch t db).committed = false ∧
    (update_resources sites fetch t db).db = db := by
  unfold update_resources
  rw [runSitesTx_none fetch t s hfail sites db hmem]
  exact ⟨rfl, rfl⟩

/-- Witness for the amended C6 theorem at a concrete run. -/
theorem listing_failure_rolls_back_run_witness :
    ("chi@uc" ∈ ["chi@tacc", "chi@uc"] ∧ fetchCE "chi@uc" = none) ∧
    (update_resources ["chi@tacc", "chi@uc"] fetchCE 100 emptyTrackerDB).committed =
        false ∧
    (update_resources ["chi@tacc", "chi@uc"] fetchCE 100 emptyTrackerDB).db =
        emptyTrackerDB :=
  ⟨⟨by decide, by decide⟩,
    listing_failure_rolls_back_run ["chi@tacc", "chi@uc"] fetchCE 100
      emptyTrackerDB "chi@uc" (by decide) (by decide)⟩

lemma seenStable_refl (r : Row) : seenStable r r :=
  ⟨rfl, rfl, rfl, rfl, rfl, rfl⟩

lemma seenStable_trans {a b c : Row} (h1 : seenStable a b)
    (h2 : seenStable b c) : seenStable a c := by
  obtain ⟨e1, e2, e3, e4, e5, e6⟩ := h1
  obtain ⟨f1, f2, f3, f4, f5, f6⟩ := h2
  exact ⟨e1.trans f1, e2.trans f2, e3.trans f3, e4.trans f4, e5.trans f5,
    e6.trans f6⟩

lemma seenStable_applySeenUpdate (s : LiveResource) (t : Int) (r : Row) :
    seenStable (applySeenUpdate s t r) r := by
  unfold applySeenUpdate
  split
  · exact ⟨rfl, rfl, rfl, rfl, rfl, rfl⟩
  · exact seenStable_refl r

lemma getD_map_lt {f : Row → Row} {l : List Row} {i : ℕ} (h : i < l.length)
    (d : Row) : (l.map f).getD i d = f (l.getD i d) := by
  rw [List.getD_eq_getElem?_getD, List.getElem?_map, List.getD_eq_getElem?_getD,
    List.getElem?_eq_getElem h]
  simp

/-- `processSeen` acts on the initial table positionally: the result is the
initial table mapped through some composition of seen-branch updates,
followed by the rows the pass inserted (to which later seen-branch updates
were also applied). -/
lemma processSeen_decomp (t : Int) (site : String) (ex : List String) :
    ∀ (live : List LiveResource) (table : List Row),
      ∃ (F : Row → Row) (suffix : List Row),
        processSeen table live t site ex = table.map F ++ suffix ∧
          ∀ r, seenStable (F r) r := by
  intro live
  induction live with
  | nil =>
    intro table
    refine ⟨id, [], ?_, fun r => seenStable_refl r⟩
    simp [processSeen]
  | cons s rest ih =>
    intro table
    have hstep : processSeen table (s :: rest) t site ex =
        processSeen
          (if ex.contains s.id then table.map (applySeenUpdate s t)
           else table ++ [insertRow s t site]) rest t site ex := rfl
    by_cases hc : ex.contains s.id
    · obtain ⟨F, suffix, hEq, hF⟩ := ih (table.map (applySeenUpdate s t))
      refine ⟨F ∘ applySeenUpdate s t, suffix, ?_, fun r =>
        seenStable_trans (hF (applySeenUpdate s t r))
          (seenStable_applySeenUpdate s t r)⟩
      rw [hstep, if_pos hc, hEq, List.map_map]
    · obtain ⟨F, suffix, hEq, hF⟩ := ih (table ++ [insertRow s t site])
      refine ⟨F, F (insertRow s t site) :: suffix, ?_, hF⟩
      rw [hstep, if_neg hc, hEq, List.map_append]
      simp

lemma markFn_fixed (m : List String) (t : Int) (r : Row) :
    (markFn m t r).resource_id = r.resource_id ∧
      (markFn m t r).project_site = r.project_site ∧
      (markFn m t r).created_time = r.created_time ∧
      (markFn m t r).system_deleted = r.system_deleted := by
  unfold markFn
  split
  · exact ⟨rfl, rfl, rfl, rfl⟩
  · exact ⟨rfl, rfl, rfl, rfl⟩

lemma markFn_ftns_some {m : List String} {t : Int} {r : Row} {v : Int}
    (h : r.first_time_not_seen = some v) :
    (markFn m t r).first_time_not_seen = some v := by
  unfold markFn
  split
  case isTrue hcond =>
    rw [h] at hcond
    simp at hcond
  case isFalse => exact h

/-- Any value of `first_time_not_seen` already set before a pass survives
the pass unchanged at its position. -/
lemma update_servers_ftns_preserved (table : List Row)
    (live : List LiveResource) (t : Int) (site : String) (i : ℕ) (v : Int)
    (h : (table.getD i row0).first_time_not_seen = some v) :
    ((update_servers table live t site).getD i row0).first_time_not_seen =
      some v := by
  by_cases hi : i < table.length
  · obtain ⟨F, suffix, hEq, hF⟩ :=
      processSeen_decomp t site (existingIds table site) live table
    have hilen : i < (table.map F).length := by simpa using hi
    have hgetD : (processSeen table live t site (existingIds table site)).getD
        i row0 = F (table.getD i row0) := by
      rw [hEq, List.getD_append _ _ _ _ hilen, getD_map_lt hi]
    have hFv : (F (table.getD i row0)).first_time_not_seen = some v := by
      rw [(hF (table.getD i row0)).2.2.2.1]
      exact h
    simp only [update_servers]
    split
    · rw [hgetD]
      exact hFv
    · have hilen1 : i <
          (processSeen table live t site (existingIds table site)).length := by
        rw [hEq]
        simp only [List.length_append, List.length_map]
        omega
      rw [markMissing, getD_map_lt hilen1, hgetD]
      exact markFn_ftns_some hFv
  · rw [List.getD_eq_default table row0 (Nat.le_of_not_lt hi)] at h
    simp [row0] at h

/-- C3: a record whose `first_time_not_seen` is already non-null keeps that
exact value through any reconciliation pass: the seen-branch `UPDATE` does
not write the column (even when the resource reappears in the live
listing), an `INSERT` only appends new rows, and the absence-marking
`UPDATE` is guarded by `first_time_not_seen IS NULL`. -/
theorem first_time_not_seen_immutable (table : List Row)
    (live : List LiveResource) (t : Int) (site : String) (i : ℕ) (v : Int)
    (h : (table.getD i row0).first_time_not_seen = some v) :
    ((update_servers table live t site).getD i row0).first_time_not_seen =
      some v :=
  update_servers_ftns_preserved table live t site i v h

/-- Witness: the already-marked row `rowF7` keeps `first_time_not_seen = 7`
through a pass whose listing even re-contains its id. -/
theorem first_time_not_seen_immutable_witness :
    ([rowF7].getD 0 row0).first_time_not_seen = some 7 ∧
    ((update_servers [rowF7] [liveR1] 9 "chi@tacc").getD 0
        row0).first_time_not_seen = some 7 :=
  ⟨by decide,
    first_time_not_seen_immutable [rowF7] [liveR1] 9 "chi@tacc" 0 7 (by decide)⟩

lemma existingIds_cons (x : Row) (l : List Row) (site : String) :
    existingIds (x :: l) site =
      if x.project_site == site then x.resource_id :: existingIds l site
      else existingIds l site := by
  simp only [existingIds, List.filter_cons]
  split <;> simp

lemma existingIds_append (l1 l2 : List Row) (site : String) :
    existingIds (l1 ++ l2) site =
      existingIds l1 site ++ existingIds l2 site := by
  simp [existingIds, List.filter_append]

lemma existingIds_map (F : Row → Row)
    (hid : ∀ r, (F r).resource_id = r.resource_id)
    (hsite : ∀ r, (F r).project_site = r.project_site) :
    ∀ (tbl : List Row) (site : String),
      existingIds (tbl.map F) site = existingIds tbl site := by
  intro tbl site
  induction tbl with
  | nil => rfl
  | cons r rest ih =>
    rw [List.map_cons, existingIds_cons, existingIds_cons, hsite r, hid r, ih]

lemma mem_existingIds_processSeen_mono (t : Int) (site0 : String)
    (ex : List String) (x : String) (site : String) :
    ∀ (live : List LiveResource) (tbl : List Row),
      x ∈ existingIds tbl site →
        x ∈ existingIds (processSeen tbl live t site0 ex) site := by
  intro live
  induction live with
  | nil =>
    intro tbl h
    simpa [processSeen] using h
  | cons s rest ih =>
    intro tbl h
    have hstep : processSeen tbl (s :: rest) t site0 ex =
        processSeen
          (if ex.contains s.id then tbl.map (applySeenUpdate s t)
           else tbl ++ [insertRow s t site0]) rest t site0 ex := rfl
    rw [hstep]
    by_cases hc : ex.contains s.id
    · rw [if_pos hc]
      apply ih
      rw [existingIds_map (applySeenUpdate s t)
        (fun r => (seenStable_applySeenUpdate s t r).1)
        (fun r => (seenStable_applySeenUpdate s t r).2.1)]
      exact h
    · rw [if_neg hc]
      apply ih
      rw [existingIds_append]
      exact List.mem_append_left _ h

lemma live_id_mem_processSeen (t : Int) (site : String) :
    ∀ (live : List LiveResource) (tbl : List Row) (ex : List String),
      (∀ y, ex.contains y = true → y ∈ existingIds tbl site) →
      ∀ s ∈ live, s.id ∈ existingIds (processSeen tbl live t site ex) site := by
  intro live
  induction live with
  | nil =>
    intro tbl ex _ s hs
    cases hs
  | cons s0 rest ih =>
    intro tbl ex hx s hs
    have hstep : processSeen tbl (s0 :: rest) t site ex =
        processSeen
          (if ex.contains s0.id then tbl.map (applySeenUpdate s0 t)
           else tbl ++ [insertRow s0 t site]) rest t site ex := rfl
    rw [hstep]
    by_cases hc : ex.contains s0.id
    · rw [if_pos hc]
      have hpres : existingIds (tbl.map (applySeenUpdate s0 t)) site =
          existingIds tbl site :=
        existingIds_map (applySeenUpdate s0 t)
          (fun r => (seenStable_applySeenUpdate s0 t r).1)
          (fun r => (seenStable_applySeenUpdate s0 t r).2.1) tbl site
      have hx' : ∀ y, ex.contains y = true →
          y ∈ existingIds (tbl.map (applySeenUpdate s0 t)) site := by
        intro y hy
        rw [hpres]
        exact hx y hy
      rcases List.mem_cons.mp hs with h1 | h1
      · subst h1
        apply mem_existingIds_processSeen_mono
        rw [hpres]
        exact hx s.id hc
      · exact ih _ _ hx' s h1
    · rw [if_neg hc]
      have hx' : ∀ y, ex.contains y = true →
          y ∈ existingIds (tbl ++ [insertRow s0 t site]) site := by
        intro y hy
        rw [existingIds_append]
        exact List.mem_append_left _ (hx y hy)
      rcases List.mem_cons.mp hs with h1 | h1
      · subst h1
        apply mem_existingIds_processSeen_mono
        rw [existingIds_append]
        apply List.mem_append_right
        rw [existingIds_cons]
        have hsite : (insertRow s t site).project_site == site := by
          simp [insertRow]
        rw [if_pos hsite]
        exact List.mem_cons_self _ _
      · exact ih _ _ hx' s h1

lemma existingIds_markMissing (tbl : List Row) (m : List String) (t : Int)
    (site : String) :
    existingIds (markMissing tbl m t) site = existingIds tbl site := by
  rw [markMissing]
  exact existingIds_map (markFn m t) (fun r => (markFn_fixed m t r).1)
    (fun r => (markFn_fixed m t r).2.1) tbl site

/-- After a pass, every id of the live listing is present in the store at
the pass's site (it was either already there or inserted). -/
lemma live_id_mem_update_servers (table : List Row)
    (live : List LiveResource) (t : Int) (site : String) (s : LiveResource)
    (hs : s ∈ live) :
    s.id ∈ existingIds (update_servers table live t site) site := by
  have hbase := live_id_mem_processSeen t site live table
    (existingIds table site) (fun y hy => List.mem_of_elem_eq_true hy) s hs
  simp only [update_servers]
  split
  · exact hbase
  · rw [existingIds_markMissing]
    exact hbase

lemma length_processSeen_all_mem (t : Int) (site : String) :
    ∀ (live : List LiveResource) (tbl : List Row) (ex : List String),
      (∀ s ∈ live, ex.contains s.id = true) →
      (processSeen tbl live t site ex).length = tbl.length := by
  intro live
  induction live with
  | nil =>
    intro tbl ex _
    rfl
  | cons s0 rest ih =>
    intro tbl ex hall
    have hc : ex.contains s0.id = true := hall s0 (List.mem_cons_self _ _)
    have hstep : processSeen tbl (s0 :: rest) t site ex =
        processSeen
          (if ex.contains s0.id then tbl.map (applySeenUpdate s0 t)
           else tbl ++ [insertRow s0 t site]) rest t site ex := rfl
    rw [hstep, if_pos hc,
      ih _ _ (fun s hsr => hall s (List.mem_cons_of_mem s0 hsr)),
      List.length_map]

lemma length_update_servers (table : List Row) (live : List LiveResource)
    (t : Int) (site : String) :
    (update_servers table live t site).length =
      (processSeen table live t site (existingIds table site)).length := by
  simp only [update_servers]
  split
  · rfl
  · rw [markMissing, List.length_map]

/-- C9: reconciling twice with the same live listing is idempotent: the
second pass inserts nothing (the table length is unchanged — every live id
is already known, so only updates run), and every `first_time_not_seen`
value set by (or before) the first pass is untouched by the second. -/
theorem reconcile_idempotent (table : List Row) (live : List LiveResource)
    (site : String) (t1 t2 : Int) :
    (update_servers (update_servers table live t1 site) live t2
        site).length = (update_servers table live t1 site).length ∧
    ∀ (i : ℕ) (v : Int),
      ((update_servers table live t1 site).getD i
          row0).first_time_not_seen = some v →
      ((update_servers (update_servers table live t1 site) live t2
          site).getD i row0).first_time_not_seen = some v := by
  constructor
  · rw [length_update_servers]
    exact length_processSeen_all_mem t2 site live _ _
      (fun s hs => List.elem_eq_true_of_mem
        (live_id_mem_update_servers table live t1 site s hs))
  · intro i v h
    exact update_servers_ftns_preserved _ live t2 site i v h

/-- Witness for C9 at a concrete table and listing: one known id, one
absent id already marked by the first pass. -/
theorem reconcile_idempotent_witness :
    (update_servers (update_servers [rowA, rowSys] [liveR1] 4 "chi@tacc")
        [liveR1] 8 "chi@tacc").length =
      (update_servers [rowA, rowSys] [liveR1] 4 "chi@tacc").length ∧
    ∀ (i : ℕ) (v : Int),
      ((update_servers [rowA, rowSys] [liveR1] 4 "chi@tacc").getD i
          row0).first_time_not_seen = some v →
      ((update_servers (update_servers [rowA, rowSys] [liveR1] 4 "chi@tacc")
          [liveR1] 8 "chi@tacc").getD i row0).first_time_not_seen = some v :=
  reconcile_idempotent [rowA, rowSys] [liveR1] "chi@tacc" 4 8

lemma markFn_marks {m : List String} {t : Int} {r : Row}
    (hmem : m.contains r.resource_id = true)
    (hnull : r.first_time_not_seen = none) :
    markFn m t r =
      { r with first_time_not_seen := some t, user_deleted := true } := by
  unfold markFn
  rw [hnull, hmem]
  rfl

/-- C10: a row of the pass's site whose id is absent from the live listing
and whose `first_time_not_seen` is still null gets `first_time_not_seen`
and `user_deleted = TRUE` set unconditionally — the statement never
consults `system_deleted`, which is preserved, so a row the orchestrator
already confirmed deleted ends up with both flags set. -/
theorem absence_marking_sets_user_deleted (table : List Row)
    (live : List LiveResource) (t : Int) (site : String) (i : ℕ)
    (hi : i < table.length)
    (hsite : (table.getD i row0).project_site = site)
    (habs : (live.map (fun s => s.id)).contains
      (table.getD i row0).resource_id = false)
    (hnull : (table.getD i row0).first_time_not_seen = none) :
    ((update_servers table live t site).getD i
        row0).first_time_not_seen = some t ∧
    ((update_servers table live t site).getD i row0).user_deleted = true ∧
    ((update_servers table live t site).getD i row0).system_deleted =
      (table.getD i row0).system_deleted := by
  obtain ⟨F, suffix, hEq, hF⟩ :=
    processSeen_decomp t site (existingIds table site) live table
  have hmemEx : (table.getD i row0).resource_id ∈ existingIds table site := by
    apply List.mem_map.mpr
    refine ⟨table.getD i row0, ?_, rfl⟩
    apply List.mem_filter.mpr
    constructor
    · rw [List.getD_eq_getElem table row0 hi]
      exact List.getElem_mem hi
    · show ((table.getD i row0).project_site == site) = true
      exact beq_iff_eq.mpr hsite
  have hmiss : (table.getD i row0).resource_id ∈
      (existingIds table site).filter
        (fun x => !((live.map (fun s => s.id)).contains x)) := by
    apply List.mem_filter.mpr
    refine ⟨hmemEx, ?_⟩
    show (!((live.map (fun s => s.id)).contains
        (table.getD i row0).resource_id)) = true
    rw [habs]
    rfl
  have hgetD : (processSeen table live t site (existingIds table site)).getD
      i row0 = F (table.getD i row0) := by
    rw [hEq, List.getD_append _ _ _ _ (by simpa using hi), getD_map_lt hi]
  simp only [update_servers]
  split
  case isTrue hempty =>
    rw [List.isEmpty_iff] at hempty
    rw [hempty] at hmiss
    cases hmiss
  case isFalse =>
    have hilen1 : i <
        (processSeen table live t site (existingIds table site)).length := by
      rw [hEq]
      simp only [List.length_append, List.length_map]
      omega
    rw [markMissing, getD_map_lt hilen1, hgetD]
    have hcontains : ((existingIds table site).filter
        (fun x => !((live.map (fun s => s.id)).contains x))).contains
          (F (table.getD i row0)).resource_id = true := by
      rw [(hF (table.getD i row0)).1]
      exact List.elem_eq_true_of_mem hmiss
    have hnull' : (F (table.getD i row0)).first_time_not_seen = none := by
      rw [(hF (table.getD i row0)).2.2.2.1]
      exact hnull
    rw [markFn_marks hcontains hnull']
    exact ⟨rfl, rfl, (hF (table.getD i row0)).2.2.2.2.1⟩

/-- Witness for C10: the orchestrator-deleted row `rowSys`
(`system_deleted = TRUE`) vanishes from the listing and is marked
`user_deleted = TRUE` as well. -/
theorem absence_marking_sets_user_deleted_witness :
    (0 < [rowSys].length ∧ ([rowSys].getD 0 row0).project_site = "chi@tacc" ∧
      (([] : List LiveResource).map (fun s => s.id)).contains
        ([rowSys].getD 0 row0).resource_id = false ∧
      ([rowSys].getD 0 row0).first_time_not_seen = none ∧
      ([rowSys].getD 0 row0).system_deleted = true) ∧
    ((update_servers [rowSys] [] 5 "chi@tacc").getD 0
        row0).first_time_not_seen = some 5 ∧
    ((update_servers [rowSys] [] 5 "chi@tacc").getD 0 row0).user_deleted =
        true ∧
    ((update_servers [rowSys] [] 5 "chi@tacc").getD 0 row0).system_deleted =
      ([rowSys].getD 0 row0).system_deleted :=
  ⟨⟨by decide, by decide, by decide, by decide, by decide⟩,
    absence_marking_sets_user_deleted [rowSys] [] 5 "chi@tacc" 0 (by decide)
      (by decide) (by decide) (by decide)⟩

lemma mem_selectQuery {tbl : List Row} {cutoff : Int} {site : Option String}
    {excl : List String} {r : Row} :
    r ∈ selectQuery tbl cutoff site excl ↔
      r ∈ tbl ∧ matchesSel cutoff site excl r = true := by
  unfold selectQuery
  rw [List.mem_insertionSort]
  exact List.mem_filter

lemma sorted_selectQuery (tbl : List Row) (cutoff : Int)
    (site : Option String) (excl : List String) :
    List.Sorted rowLE (selectQuery tbl cutoff site excl) :=
  List.sorted_insertionSort rowLE _

lemma matchesSel_spec {cutoff : Int} {site : Option String}
    {excl : List String} {r : Row} (h : matchesSel cutoff site excl r = true) :
    r.created_time < cutoff ∧ r.first_time_not_seen = none ∧
      (∀ s, site = some s → r.project_site = s) ∧
      excl.contains r.resource_name = false := by
  unfold matchesSel at h
  simp only [Bool.and_eq_true, decide_eq_true_eq, beq_iff_eq,
    Bool.not_eq_true'] at h
  obtain ⟨⟨⟨h1, h2⟩, h3⟩, h4⟩ := h
  refine ⟨h1, h2, ?_, h4⟩
  intro s hsite
  rw [hsite] at h3
  unfold siteMatches at h3
  exact beq_iff_eq.mp h3

lemma matchesSel_nil_excl {cutoff : Int} {site : Option String} {r : Row}
    (h1 : r.created_time < cutoff) (h2 : r.first_time_not_seen = none)
    (h3 : siteMatches site r = true) :
    matchesSel cutoff site [] r = true := by
  unfold matchesSel
  rw [h2, h3]
  simp [h1]

lemma sel_if_sound {c : Prop} [Decidable c] {tbl : List Row} {cutoff : Int}
    {site : Option String} {excl : List String} {r : Row}
    (h : r ∈ (if c then selectQuery tbl cutoff site excl else [])) :
    matchesSel cutoff site excl r = true := by
  split at h
  · exact (mem_selectQuery.mp h).2
  · exact absurd h (List.not_mem_nil r)

lemma sel_if_sorted (c : Prop) [Decidable c] (tbl : List Row) (cutoff : Int)
    (site : Option String) (excl : List String) :
    List.Sorted rowLE (if c then selectQuery tbl cutoff site excl else []) := by
  split
  · exact sorted_selectQuery tbl cutoff site excl
  · exact List.sorted_nil

/-- C2: every row any of the five selection queries returns was created
before `now - hours`, has `first_time_not_seen IS NULL` (a marked-absent
row is never returned, however old), and lies in the requested site when
one was given; and each kind's list is in ascending `created_time` order. -/
theorem retirement_selection_sound (db : InventoryDB) (now hours : Int)
    (kinds : List String) (site : Option String) (hpos : 0 < hours) :
    (∀ r : Row,
        (r ∈ (get_resources_to_delete db now hours kinds site).servers ∨
         r ∈ (get_resources_to_delete db now hours kinds site).networks ∨
         r ∈ (get_resources_to_delete db now hours kinds site).subnets ∨
         r ∈ (get_resources_to_delete db now hours kinds site).routers ∨
         r ∈ (get_resources_to_delete db now hours kinds site).floating_ips) →
        SelectedRowOk now hours site r) ∧
    List.Sorted rowLE (get_resources_to_delete db now hours kinds site).servers ∧
    List.Sorted rowLE (get_resources_to_delete db now hours kinds site).networks ∧
    List.Sorted rowLE (get_resources_to_delete db now hours kinds site).subnets ∧
    List.Sorted rowLE (get_resources_to_delete db now hours kinds site).routers ∧
    List.Sorted rowLE
      (get_resources_to_delete db now hours kinds site).floating_ips := by
  simp only [get_resources_to_delete]
  constructor
  · intro r hr
    have hm : ∃ excl, matchesSel (now - hours) site excl r = true := by
      rcases hr with h1 | h1 | h1 | h1 | h1
      · exact ⟨[], sel_if_sound h1⟩
      · exact ⟨protectedNetworks, sel_if_sound h1⟩
      · exact ⟨protectedSubnets, sel_if_sound h1⟩
      · exact ⟨[], sel_if_sound h1⟩
      · exact ⟨[], sel_if_sound h1⟩
    obtain ⟨excl, hm⟩ := hm
    obtain ⟨ha, hb, hc, _⟩ := matchesSel_spec hm
    exact ⟨ha, hb, hc⟩
  · exact ⟨sel_if_sorted _ _ _ _ _, sel_if_sorted _ _ _ _ _,
      sel_if_sorted _ _ _ _ _, sel_if_sorted _ _ _ _ _,
      sel_if_sorted _ _ _ _ _⟩

/-- Witness for C2 at a concrete store, cutoff and kind list. -/
theorem retirement_selection_sound_witness :
    0 < (24 : Int) ∧
    ((∀ r : Row,
        (r ∈ (get_resources_to_delete dbFix 100 24
            ["servers", "networks", "subnets", "routers", "floating_ips"]
            none).servers ∨
         r ∈ (get_resources_to_delete dbFix 100 24
            ["servers", "networks", "subnets", "routers", "floating_ips"]
            none).networks ∨
         r ∈ (get_resources_to_delete dbFix 100 24
            ["servers", "networks", "subnets", "routers", "floating_ips"]
            none).subnets ∨
         r ∈ (get_resources_to_delete dbFix 100 24
            ["servers", "networks", "subnets", "routers", "floating_ips"]
            none).routers ∨
         r ∈ (get_resources_to_delete dbFix 100 24
            ["servers", "networks", "subnets", "routers", "floating_ips"]
            none).floating_ips) →
        SelectedRowOk 100 24 none r) ∧
     List.Sorted rowLE (get_resources_to_delete dbFix 100 24
        ["servers", "networks", "subnets", "routers", "floating_ips"]
        none).servers ∧
     List.Sorted rowLE (get_resources_to_delete dbFix 100 24
        ["servers", "networks", "subnets", "routers", "floating_ips"]
        none).networks ∧
     List.Sorted rowLE (get_resources_to_delete dbFix 100 24
        ["servers", "networks", "subnets", "routers", "floating_ips"]
        none).subnets ∧
     List.Sorted rowLE (get_resources_to_delete dbFix 100 24
        ["servers", "networks", "subnets", "routers", "floating_ips"]
        none).routers ∧
     List.Sorted rowLE (get_resources_to_delete dbFix 100 24
        ["servers", "networks", "subnets", "routers", "floating_ips"]
        none).floating_ips) :=
  ⟨by decide,
    retirement_selection_sound dbFix 100 24
      ["servers", "networks", "subnets", "routers", "floating_ips"] none
      (by decide)⟩

/-- C8: a network named `public` or `sharednet1` and a subnet named
`sharednet1-subnet` are never selected, however old; and the servers,
routers and floating-ip queries apply no name-based exclusion — any row of
those tables meeting the age, absence and site conditions is returned,
whatever its name. -/
theorem protected_names_enforced (db : InventoryDB) (now hours : Int)
    (kinds : List String) (site : Option String) (hpos : 0 < hours) :
    (∀ r ∈ (get_resources_to_delete db now hours kinds site).networks,
        r.resource_name ≠ "public" ∧ r.resource_name ≠ "sharednet1") ∧
    (∀ r ∈ (get_resources_to_delete db now hours kinds site).subnets,
        r.resource_name ≠ "sharednet1-subnet") ∧
    (∀ r ∈ db.servers, kinds.contains "servers" = true →
        r.created_time < now - hours → r.first_time_not_seen = none →
        siteMatches site r = true →
        r ∈ (get_resources_to_delete db now hours kinds site).servers) ∧
    (∀ r ∈ db.routers, kinds.contains "routers" = true →
        r.created_time < now - hours → r.first_time_not_seen = none →
        siteMatches site r = true →
        r ∈ (get_resources_to_delete db now hours kinds site).routers) ∧
    (∀ r ∈ db.floating_ips, kinds.contains "floating_ips" = true →
        r.created_time < now - hours → r.first_time_not_seen = none →
        siteMatches site r = true →
        r ∈ (get_resources_to_delete db now hours kinds site).floating_ips) := by
  simp only [get_resources_to_delete]
  refine ⟨?_, ?_, ?_, ?_, ?_⟩
  · intro r hr
    have h4 := (matchesSel_spec (sel_if_sound hr)).2.2.2
    constructor
    · intro he
      rw [he] at h4
      exact absurd h4 (by decide)
    · intro he
      rw [he] at h4
      exact absurd h4 (by decide)
  · intro r hr
    have h4 := (matchesSel_spec (sel_if_sound hr)).2.2.2
    intro he
    rw [he] at h4
    exact absurd h4 (by decide)
  · intro r hr hk h1 h2 h3
    rw [if_pos hk]
    exact mem_selectQuery.mpr ⟨hr, matchesSel_nil_excl h1 h2 h3⟩
  · intro r hr hk h1 h2 h3
    rw [if_pos hk]
    exact mem_selectQuery.mpr ⟨hr, matchesSel_nil_excl h1 h2 h3⟩
  · intro r hr hk h1 h2 h3
    rw [if_pos hk]
    exact mem_selectQuery.mpr ⟨hr, matchesSel_nil_excl h1 h2 h3⟩

/-- Witness for C8 at a concrete store containing a protected-named
network. -/
theorem protected_names_enforced_witness :
    0 < (24 : Int) ∧
    ((∀ r ∈ (get_resources_to_delete dbFix 100 24
        ["servers", "networks", "subnets", "routers", "floating_ips"]
        none).networks,
        r.resource_name ≠ "public" ∧ r.resource_name ≠ "sharednet1") ∧
     (∀ r ∈ (get_resources_to_delete dbFix 100 24
        ["servers", "networks", "subnets", "routers", "floating_ips"]
        none).subnets,
        r.resource_name ≠ "sharednet1-subnet") ∧
     (∀ r ∈ dbFix.servers,
        (["servers", "networks", "subnets", "routers",
            "floating_ips"] : List String).contains "servers" = true →
        r.created_time < 100 - 24 → r.first_time_not_seen = none →
        siteMatches none r = true →
        r ∈ (get_resources_to_delete dbFix 100 24
          ["servers", "networks", "subnets", "routers", "floating_ips"]
          none).servers) ∧
     (∀ r ∈ dbFix.routers,
        (["servers", "networks", "subnets", "routers",
            "floating_ips"] : List String).contains "routers" = true →
        r.created_time < 100 - 24 → r.first_time_not_seen = none →
        siteMatches none r = true →
        r ∈ (get_resources_to_delete dbFix 100 24
          ["servers", "networks", "subnets", "routers", "floating_ips"]
          none).routers) ∧
     (∀ r ∈ dbFix.floating_ips,
        (["servers", "networks", "subnets", "routers",
            "floating_ips"] : List String).contains "floating_ips" = true →
        r.created_time < 100 - 24 → r.first_time_not_seen = none →
        siteMatches none r = true →
        r ∈ (get_resources_to_delete dbFix 100 24
          ["servers", "networks", "subnets", "routers", "floating_ips"]
          none).floating_ips)) :=
  ⟨by decide,
    protected_names_enforced dbFix 100 24
      ["servers", "networks", "subnets", "routers", "floating_ips"] none
      (by decide)⟩
